import Mathlib

/-!
# Verification of the Identity & Compliance API (src/main.py)

Shallow embedding of the OTP lifecycle and registration state machine of
`src/main.py`. Strings are modelled as `List Char`, timestamps as `Nat`
(seconds), and the MongoDB document store (an external collaborator per the
spec, provided by the absent `database.py`) as in-memory lists with a
monotone `_id` counter. `random.randint` is modelled as a function of an
arbitrary seed that always lands in the requested inclusive range.
-/

namespace IdentityApi

/-- ASCII whitespace recognised by Python's `str.strip()` default
(space, tab, newline, carriage return, vertical tab, form feed). -/
def isPySpace (c : Char) : Bool :=
  c = ' ' || c = '\t' || c = '\n' || c = '\r' || c = Char.ofNat 11 || c = Char.ofNat 12

/-- Python `str.strip()`: drop leading and trailing whitespace. -/
def pyStrip (l : List Char) : List Char :=
  ((l.dropWhile isPySpace).reverse.dropWhile isPySpace).reverse

/-- Python `str.replace(" ", "")`: remove every space character. -/
def removeSpaces (l : List Char) : List Char :=
  l.filter (fun c => !(c = ' '))

/-- The cleanup pass of `normalize_phone`: strip, then delete spaces. -/
def cleanPhone (l : List Char) : List Char :=
  removeSpaces (pyStrip l)

/-- Embeds `normalize_phone` from src/main.py: strip whitespace, remove
spaces, and rewrite a leading "00" to "+" when the string does not start
with "+". -/
def normalizePhone (s : List Char) : List Char :=
  let t := cleanPhone s
  if t.take 1 = ['+'] then t
  else if t.take 2 = ['0', '0'] then '+' :: t.drop 2
  else t

/-- Python `str.lower()` on the ASCII range (sufficient for the rule
engine's literal keywords). -/
def lowerStr (l : List Char) : List Char := l.map Char.toLower

/-- Python `str.upper()` on the ASCII range. -/
def upperStr (l : List Char) : List Char := l.map Char.toUpper

/-- Python substring test `pat in s`. -/
def containsSub : List Char → List Char → Bool
  | s, pat =>
    match s with
    | [] => pat.isEmpty
    | c :: t => pat.isPrefixOf (c :: t) || containsSub t pat

/-- The fixed country allow-set of `kyc_rule_engine`. -/
def allowedCountries : List (List Char) :=
  [['C', 'I'], ['S', 'N'], ['B', 'J'], ['T', 'G'],
   ['C', 'M'], ['G', 'A'], ['C', 'G'], ['C', 'D']]

/-- The suspect-name keywords of `kyc_rule_engine`. -/
def badWords : List (List Char) :=
  [['t', 'e', 's', 't'], ['f', 'a', 'k', 'e'], ['d', 'e', 'm', 'o']]

inductive Flag where
  | COUNTRY_UNSUPPORTED
  | SUSPECT_NAME
  deriving DecidableEq, Repr

structure KycResult where
  pass : Bool
  flags : List Flag
  deriving DecidableEq, Repr

/-- Python truthiness of `country` (an `Optional[str]`): `None` and the
empty string are falsy. -/
def countryTruthy : Option (List Char) → Bool
  | none => false
  | some c => !c.isEmpty

/-- The first condition of `kyc_rule_engine`:
`country and country.upper() not in {"CI", ...}`. -/
def countryBad (country : Option (List Char)) : Bool :=
  countryTruthy country &&
    !(match country with
      | none => false
      | some c => decide (upperStr c ∈ allowedCountries))

/-- The second condition of `kyc_rule_engine`:
`any(bad in name.lower() for bad in ["test", "fake", "demo"])`. -/
def nameBad (name : List Char) : Bool :=
  badWords.any (fun bad => containsSub (lowerStr name) bad)

/-- Embeds `kyc_rule_engine` from src/main.py. The `email` argument is
accepted and ignored, exactly as in the source. -/
def kycRuleEngine (country : Option (List Char)) (name : List Char)
    (email : List Char) : KycResult :=
  let flags0 : List Flag := []
  let flags1 :=
    if countryBad country then flags0 ++ [Flag.COUNTRY_UNSUPPORTED] else flags0
  let flags2 :=
    if nameBad name then flags1 ++ [Flag.SUSPECT_NAME] else flags1
  { pass := flags2.length = 0, flags := flags2 }

/-- An `otpsession` document. `createdAt` is set at insert time
(modelled from the spec: the `OtpSession` schema in the absent
`schemas.py` defaults `created_at` to the current time). -/
structure OtpSession where
  phone : List Char
  code : List Char
  createdAt : Nat
  expiresAt : Nat
  verified : Bool
  updatedAt : Option Nat
  id : Nat
  deriving DecidableEq, Repr

/-- An `identity` document. Modelled from the spec: the `Identity` schema
in the absent `schemas.py` sets `created_at` implicitly at insert time. -/
structure Identity where
  phone : List Char
  name : List Char
  email : List Char
  country : Option (List Char)
  faithAffirmation : Bool
  createdAt : Nat
  updatedAt : Option Nat
  id : Nat
  deriving DecidableEq, Repr

/-- The document store. Modelled from the spec: `database.py` is absent;
the spec describes a generic store with insert / findOne / sorted find /
updateOne, embedded here as lists in insertion (natural) order with a
fresh-id counter for generated `_id`s. -/
structure DB where
  otps : List OtpSession
  idents : List Identity
  nextId : Nat
  deriving DecidableEq, Repr

/-- One step of the descending-`created_at`, limit-1 query: keep the
record with the larger `created_at` (the earlier-inserted one on ties). -/
def pickLater (acc : Option OtpSession) (r : OtpSession) : Option OtpSession :=
  match acc with
  | none => some r
  | some b => if b.createdAt < r.createdAt then some r else some b

/-- Embeds `get_latest_otp` from src/main.py: the matching session with
maximal `created_at`, or `none`. -/
def getLatestOtp (otps : List OtpSession) (phone : List Char) : Option OtpSession :=
  (otps.filter (fun r => decide (r.phone = phone))).foldl pickLater none

/-- The in-place `$set` of `verify_otp`, keyed by `_id`. -/
def setVerified (i now : Nat) (r : OtpSession) : OtpSession :=
  if r.id = i then { r with verified := true, updatedAt := some now } else r

/-- Mongo `update_one` on `otpsession` by `_id`: rewrite the first
matching document. -/
def updateFirstOtp (l : List OtpSession) (i now : Nat) : List OtpSession :=
  match l with
  | [] => []
  | r :: t =>
    if r.id = i then { r with verified := true, updatedAt := some now } :: t
    else r :: updateFirstOtp t i now

/-- Python `random.randint(lo, hi)`: the seed is the ambient entropy; the
result always lies in the inclusive range `[lo, hi]`. -/
def randint (lo hi seed : Nat) : Nat := lo + seed % (hi + 1 - lo)

/-- Decimal digit to character, as in Python's `str` formatting. -/
def digitChar (d : Nat) : Char := Char.ofNat (48 + d)

/-- Fuel-driven most-significant-first decimal rendering. -/
def natToDecAux : Nat → Nat → List Char
  | 0, _ => []
  | fuel + 1, n =>
    if n = 0 then [] else natToDecAux fuel (n / 10) ++ [digitChar (n % 10)]

/-- Python `f"{n}"` for a natural number: decimal, no leading zeros. -/
def natToDecimal (n : Nat) : List Char :=
  if n = 0 then ['0'] else natToDecAux (n + 1) n

inductive VerifyError where
  | NotFound
  | Expired
  | InvalidCode
  deriving DecidableEq, Repr

inductive RegErr where
  | PhoneNotVerified
  | AffirmationRequired
  | ComplianceRejected (flags : List Flag)
  deriving DecidableEq, Repr

inductive RegStatus where
  | CREATED
  | UPDATED
  deriving DecidableEq, Repr

structure StartResp where
  phone : List Char
  expiresInSec : Nat
  debugCode : List Char
  deriving DecidableEq, Repr

structure VerifyPayload where
  phone : List Char
  code : List Char
  deriving DecidableEq, Repr

structure RegisterPayload where
  phone : List Char
  name : List Char
  email : List Char
  country : Option (List Char)
  faithAffirmation : Bool
  deriving DecidableEq, Repr

/-- Embeds `start_otp` from src/main.py: normalize the phone, draw a code
with `randint(100000, 999999)`, insert a fresh unverified session expiring
in 300 seconds, and return the code with a 300-second expiry. -/
def startOtp (db : DB) (phoneRaw : List Char) (seed now : Nat) : DB × StartResp :=
  let phone := normalizePhone phoneRaw
  let code := natToDecimal (randint 100000 999999 seed)
  let session : OtpSession :=
    { phone := phone, code := code, createdAt := now, expiresAt := now + 300,
      verified := false, updatedAt := none, id := db.nextId }
  ({ db with otps := db.otps ++ [session], nextId := db.nextId + 1 },
   { phone := phone, expiresInSec := 300, debugCode := code })

/-- Embeds `verify_otp` from src/main.py: look up the latest session for
the normalized phone; 404 if none, `Expired` when strictly past
`expires_at`, `InvalidCode` on string mismatch, else flip `verified` and
stamp `updated_at`. -/
def verifyOtp (db : DB) (p : VerifyPayload) (now : Nat) :
    DB × Except VerifyError (List Char) :=
  let phone := normalizePhone p.phone
  match getLatestOtp db.otps phone with
  | none => (db, .error .NotFound)
  | some r =>
    if now > r.expiresAt then (db, .error .Expired)
    else if p.code ≠ r.code then (db, .error .InvalidCode)
    else ({ db with otps := updateFirstOtp db.otps r.id now }, .ok phone)

/-- The in-place `$set` of `register_identity` on an existing identity,
keyed by `_id`: update name, email, country, affirmation, `updated_at`. -/
def updateFirstIdent (l : List Identity) (i : Nat) (p : RegisterPayload)
    (now : Nat) : List Identity :=
  match l with
  | [] => []
  | e :: t =>
    if e.id = i then
      { e with name := p.name, email := p.email, country := p.country,
               faithAffirmation := p.faithAffirmation, updatedAt := some now } :: t
    else e :: updateFirstIdent t i p now

/-- Embeds `register_identity` from src/main.py: gate on the latest
session being verified, then on the affirmation, then on the rule engine;
finally upsert the identity by phone. -/
def register (db : DB) (p : RegisterPayload) (now : Nat) :
    DB × Except RegErr RegStatus :=
  let phone := normalizePhone p.phone
  match getLatestOtp db.otps phone with
  | none => (db, .error .PhoneNotVerified)
  | some r =>
    if r.verified = false then (db, .error .PhoneNotVerified)
    else if p.faithAffirmation = false then (db, .error .AffirmationRequired)
    else
      let kyc := kycRuleEngine p.country p.name p.email
      if kyc.pass = false then (db, .error (.ComplianceRejected kyc.flags))
      else
        match db.idents.find? (fun e => decide (e.phone = phone)) with
        | some e =>
          ({ db with idents := updateFirstIdent db.idents e.id p now }, .ok .UPDATED)
        | none =>
          ({ db with
               idents := db.idents ++
                 [{ phone := phone, name := p.name, email := p.email,
                    country := p.country, faithAffirmation := p.faithAffirmation,
                    createdAt := now, updatedAt := none, id := db.nextId }],
               nextId := db.nextId + 1 },
           .ok .CREATED)

/-- The phone-verification gate of `register_identity` as a boolean:
`not rec or not rec.get("verified")` negated. -/
def latestVerifiedB (db : DB) (p : RegisterPayload) : Bool :=
  match getLatestOtp db.otps (normalizePhone p.phone) with
  | none => false
  | some r => r.verified

/-- A list of characters whose first character, if any, is not Python
whitespace (proof vocabulary for `pyStrip`). -/
def HeadOk (l : List Char) : Prop :=
  ∀ c, l.head? = some c → isPySpace c = false

theorem head?_dropWhile_pySpace (l : List Char) :
    HeadOk (l.dropWhile isPySpace) := by
  induction l with
  | nil => intro c hc; simp [List.dropWhile] at hc
  | cons a t ih =>
    intro c hc
    rw [List.dropWhile_cons] at hc
    cases ha : isPySpace a
    · rw [if_neg (by simp [ha])] at hc
      have hac : a = c := by simpa using hc
      rw [← hac]; exact ha
    · rw [if_pos (by rw [ha])] at hc
      exact ih c hc

theorem dropWhile_eq_self_of_headOk (l : List Char) (h : HeadOk l) :
    l.dropWhile isPySpace = l := by
  cases l with
  | nil => rfl
  | cons a t => simp [List.dropWhile_cons, h a rfl]

theorem getLast?_dropWhile_pySpace (l : List Char) :
    ∀ c, (l.dropWhile isPySpace).getLast? = some c → l.getLast? = some c := by
  induction l with
  | nil => intro c hc; simp [List.dropWhile] at hc
  | cons a t ih =>
    intro c hc
    rw [List.dropWhile_cons] at hc
    cases ha : isPySpace a
    · rw [if_neg (by simp [ha])] at hc
      exact hc
    · rw [if_pos (by rw [ha])] at hc
      have ht := ih c hc
      cases t with
      | nil => simp at ht
      | cons b t' => rw [List.getLast?_cons_cons]; exact ht

theorem getLast?_append_right' (A B : List Char) (c : Char)
    (h : B.getLast? = some c) : (A ++ B).getLast? = some c := by
  induction A with
  | nil => simpa using h
  | cons a A ih =>
    have hne : A ++ B ≠ [] := by
      intro hAB
      rcases List.append_eq_nil.mp hAB with ⟨_, rfl⟩
      simp at h
    cases hAB : A ++ B with
    | nil => exact absurd hAB hne
    | cons x xs =>
      rw [List.cons_append, hAB, List.getLast?_cons_cons, ← hAB]
      exact ih

theorem headOk_pyStrip (l : List Char) : HeadOk (pyStrip l) := by
  intro c hc
  rw [show pyStrip l
        = ((l.dropWhile isPySpace).reverse.dropWhile isPySpace).reverse from rfl,
      List.head?_reverse] at hc
  have h2 := getLast?_dropWhile_pySpace _ c hc
  rw [List.getLast?_reverse] at h2
  exact head?_dropWhile_pySpace l c h2

theorem revHeadOk_pyStrip (l : List Char) : HeadOk (pyStrip l).reverse := by
  intro c hc
  rw [show pyStrip l
        = ((l.dropWhile isPySpace).reverse.dropWhile isPySpace).reverse from rfl,
      List.reverse_reverse] at hc
  exact head?_dropWhile_pySpace _ c hc

theorem isPySpace_of_space : isPySpace ' ' = true := by decide

theorem headOk_removeSpaces (l : List Char) (h : HeadOk l) :
    HeadOk (removeSpaces l) := by
  intro c hc
  cases l with
  | nil => simp [removeSpaces, List.filter] at hc
  | cons a t =>
    have ha := h a rfl
    have ha' : ¬ a = ' ' := by
      intro he; rw [he] at ha; rw [isPySpace_of_space] at ha; cases ha
    rw [show removeSpaces (a :: t) = a :: removeSpaces t by
          simp [removeSpaces, List.filter_cons, ha']] at hc
    have hac : a = c := by simpa using hc
    rw [← hac]; exact ha

theorem cleanPhone_headOk (s : List Char) : HeadOk (cleanPhone s) :=
  headOk_removeSpaces _ (headOk_pyStrip s)

theorem cleanPhone_revHeadOk (s : List Char) : HeadOk (cleanPhone s).reverse := by
  show HeadOk (List.filter _ (pyStrip s)).reverse
  rw [← List.filter_reverse]
  exact headOk_removeSpaces _ (revHeadOk_pyStrip s)

theorem pyStrip_eq_self (l : List Char) (h1 : HeadOk l) (h2 : HeadOk l.reverse) :
    pyStrip l = l := by
  unfold pyStrip
  rw [dropWhile_eq_self_of_headOk l h1, dropWhile_eq_self_of_headOk l.reverse h2,
      List.reverse_reverse]

theorem noSpace_cleanPhone (s : List Char) : ∀ c ∈ cleanPhone s, ¬ c = ' ' := by
  intro c hc
  have := (List.mem_filter.mp hc).2
  simpa using this

theorem removeSpaces_eq_self (l : List Char) (h : ∀ c ∈ l, ¬ c = ' ') :
    removeSpaces l = l := by
  unfold removeSpaces
  rw [List.filter_eq_self]
  intro a ha
  simpa using h a ha

theorem cleanPhone_idem (s : List Char) :
    cleanPhone (cleanPhone s) = cleanPhone s := by
  show removeSpaces (pyStrip (cleanPhone s)) = cleanPhone s
  rw [pyStrip_eq_self _ (cleanPhone_headOk s) (cleanPhone_revHeadOk s)]
  exact removeSpaces_eq_self _ (noSpace_cleanPhone s)

theorem cleanPhone_plus_cons (s : List Char) :
    cleanPhone ('+' :: (cleanPhone s).drop 2) = '+' :: (cleanPhone s).drop 2 := by
  have hH : HeadOk ('+' :: (cleanPhone s).drop 2) := by
    intro c hc
    have : '+' = c := by simpa using hc
    rw [← this]; decide
  have hR : HeadOk ('+' :: (cleanPhone s).drop 2).reverse := by
    intro c hc
    rw [List.reverse_cons] at hc
    cases hd : ((cleanPhone s).drop 2).reverse with
    | nil =>
      rw [hd] at hc
      have : '+' = c := by simpa using hc
      rw [← this]; decide
    | cons x xs =>
      rw [hd] at hc
      have hxc : x = c := by simpa using hc
      have hx : ((cleanPhone s).drop 2).getLast? = some x := by
        rw [← List.head?_reverse, hd]; rfl
      have ht : (cleanPhone s).getLast? = some x := by
        conv_lhs => rw [← List.take_append_drop 2 (cleanPhone s)]
        exact getLast?_append_right' _ _ x hx
      have := cleanPhone_revHeadOk s x (by rw [List.head?_reverse]; exact ht)
      rw [← hxc]; exact this
  have hns : ∀ c ∈ ('+' :: (cleanPhone s).drop 2), ¬ c = ' ' := by
    intro c hc
    rcases List.mem_cons.mp hc with h | h
    · rw [h]; decide
    · exact noSpace_cleanPhone s c (List.drop_subset 2 (cleanPhone s) h)
  show removeSpaces (pyStrip _) = _
  rw [pyStrip_eq_self _ hH hR]
  exact removeSpaces_eq_self _ hns

theorem normalizePhone_of_clean (u : List Char) (hu : cleanPhone u = u) :
    normalizePhone u =
      (if u.take 1 = ['+'] then u
       else if u.take 2 = ['0', '0'] then '+' :: u.drop 2
       else u) := by
  simp only [normalizePhone, hu]

/-- Claim C10: `normalize_phone` is idempotent; its output contains no space
character anywhere; and it rewrites a leading "00" of the cleaned string
to "+" exactly when the cleaned string does not already start with "+". -/
theorem normalizePhone_idempotent (s : List Char) :
    normalizePhone (normalizePhone s) = normalizePhone s ∧
    (normalizePhone s).all (fun c => !(c = ' ')) = true ∧
    normalizePhone s =
      (if (cleanPhone s).take 1 = ['+'] then cleanPhone s
       else if (cleanPhone s).take 2 = ['0', '0'] then '+' :: (cleanPhone s).drop 2
       else cleanPhone s) := by
  have hbranch : normalizePhone s =
      (if (cleanPhone s).take 1 = ['+'] then cleanPhone s
       else if (cleanPhone s).take 2 = ['0', '0'] then '+' :: (cleanPhone s).drop 2
       else cleanPhone s) := rfl
  refine ⟨?_, ?_, hbranch⟩
  · by_cases h1 : (cleanPhone s).take 1 = ['+']
    · have hs : normalizePhone s = cleanPhone s := by rw [hbranch, if_pos h1]
      rw [hs, normalizePhone_of_clean _ (cleanPhone_idem s), if_pos h1]
    · by_cases h2 : (cleanPhone s).take 2 = ['0', '0']
      · have hs : normalizePhone s = '+' :: (cleanPhone s).drop 2 := by
          rw [hbranch, if_neg h1, if_pos h2]
        rw [hs, normalizePhone_of_clean _ (cleanPhone_plus_cons s)]
        rw [if_pos (by simp)]
      · have hs : normalizePhone s = cleanPhone s := by
          rw [hbranch, if_neg h1, if_neg h2]
        rw [hs, normalizePhone_of_clean _ (cleanPhone_idem s), if_neg h1, if_neg h2]
  · rw [List.all_eq_true]
    intro c hc
    have : ¬ c = ' ' := by
      rw [hbranch] at hc
      by_cases h1 : (cleanPhone s).take 1 = ['+']
      · rw [if_pos h1] at hc
        exact noSpace_cleanPhone s c hc
      · by_cases h2 : (cleanPhone s).take 2 = ['0', '0']
        · rw [if_neg h1, if_pos h2] at hc
          rcases List.mem_cons.mp hc with h | h
          · rw [h]; decide
          · exact noSpace_cleanPhone s c (List.drop_subset 2 (cleanPhone s) h)
        · rw [if_neg h1, if_neg h2] at hc
          exact noSpace_cleanPhone s c hc
    simpa using this

/-- Claim C2: `verify_otp` consults only the latest session; its failures are,
in order: `NotFound` with no session, `Expired` strictly past `expires_at`
regardless of the code, `InvalidCode` on string mismatch. -/
theorem verifyOtp_error_order (db : DB) (p : VerifyPayload) (now : Nat) :
    (verifyOtp db p now).2 =
      match getLatestOtp db.otps (normalizePhone p.phone) with
      | none => .error .NotFound
      | some r =>
        if now > r.expiresAt then .error .Expired
        else if p.code ≠ r.code then .error .InvalidCode
        else .ok (normalizePhone p.phone) := by
  cases h : getLatestOtp db.otps (normalizePhone p.phone) with
  | none => simp [verifyOtp, h]
  | some r =>
    simp only [verifyOtp, h]
    split_ifs <;> rfl

/-- Claim C8: a failing `InvalidCode` verification writes nothing: the whole
store, in particular every session's `verified` field, is unchanged. -/
theorem verifyOtp_invalid_code_no_write (db : DB) (p : VerifyPayload)
    (now : Nat) (r : OtpSession)
    (h : getLatestOtp db.otps (normalizePhone p.phone) = some r)
    (hexp : ¬ now > r.expiresAt) (hcode : p.code ≠ r.code) :
    verifyOtp db p now = (db, .error .InvalidCode) := by
  simp only [verifyOtp, h]
  rw [if_neg hexp, if_pos hcode]

theorem verifyOtp_invalid_code_no_write_witness :
    verifyOtp ⟨[⟨['7'], ['1'], 0, 300, false, none, 0⟩], [], 1⟩ ⟨['7'], ['2']⟩ 0 =
      (⟨[⟨['7'], ['1'], 0, 300, false, none, 0⟩], [], 1⟩, .error .InvalidCode) :=
  verifyOtp_invalid_code_no_write _ _ 0 ⟨['7'], ['1'], 0, 300, false, none, 0⟩
    (by decide) (by decide) (by decide)

theorem register_ne_pnv_of_verified (db : DB) (p : RegisterPayload) (now : Nat)
    (r : OtpSession) (h : getLatestOtp db.otps (normalizePhone p.phone) = some r)
    (hv : r.verified = true) :
    (register db p now).2 ≠ .error .PhoneNotVerified := by
  simp only [register, h]
  rw [if_neg (by simp [hv])]
  by_cases hf : p.faithAffirmation = false
  · rw [if_pos hf]; simp
  · rw [if_neg hf]
    by_cases hk : (kycRuleEngine p.country p.name p.email).pass = false
    · rw [if_pos hk]; simp
    · rw [if_neg hk]
      cases hfind : db.idents.find? (fun e => decide (e.phone = normalizePhone p.phone)) <;>
        simp [hfind]

theorem register_pnv_of_unverified (db : DB) (p : RegisterPayload) (now : Nat)
    (h : latestVerifiedB db p = false) :
    register db p now = (db, .error .PhoneNotVerified) := by
  cases hg : getLatestOtp db.otps (normalizePhone p.phone) with
  | none => simp [register, hg]
  | some r =>
    simp only [latestVerifiedB, hg] at h
    simp only [register, hg]
    rw [if_pos h]

/-- Claim C1: `register_identity` fails `PhoneNotVerified` with the store
untouched exactly when the latest session for the phone is absent or
unverified; hence an identity write happens only under a verified latest
session. -/
theorem register_gate_iff (db : DB) (p : RegisterPayload) (now : Nat) :
    register db p now = (db, .error .PhoneNotVerified) ↔
      latestVerifiedB db p = false := by
  constructor
  · intro hEq
    cases hg : getLatestOtp db.otps (normalizePhone p.phone) with
    | none => simp [latestVerifiedB, hg]
    | some r =>
      cases hvr : r.verified with
      | false => simp [latestVerifiedB, hg, hvr]
      | true =>
        exact absurd
          (show (register db p now).2 = .error .PhoneNotVerified by rw [hEq])
          (register_ne_pnv_of_verified db p now r hg hvr)
  · exact register_pnv_of_unverified db p now

theorem register_affirmation_required (db : DB) (p : RegisterPayload) (now : Nat)
    (hv : latestVerifiedB db p = true) (hf : p.faithAffirmation = false) :
    register db p now = (db, .error .AffirmationRequired) := by
  cases hg : getLatestOtp db.otps (normalizePhone p.phone) with
  | none => simp [latestVerifiedB, hg] at hv
  | some r =>
    simp only [latestVerifiedB, hg] at hv
    simp only [register, hg]
    rw [if_neg (by simp [hv]), if_pos hf]

theorem register_compliance_rejected (db : DB) (p : RegisterPayload) (now : Nat)
    (hv : latestVerifiedB db p = true) (hf : p.faithAffirmation = true)
    (hk : (kycRuleEngine p.country p.name p.email).pass = false) :
    register db p now =
      (db, .error (.ComplianceRejected (kycRuleEngine p.country p.name p.email).flags)) := by
  cases hg : getLatestOtp db.otps (normalizePhone p.phone) with
  | none => simp [latestVerifiedB, hg] at hv
  | some r =>
    simp only [latestVerifiedB, hg] at hv
    simp only [register, hg]
    rw [if_neg (by simp [hv]), if_neg (by simp [hf]), if_pos hk]

/-- Claim C5: the three preconditions of `register_identity` are checked in
order with short-circuit — phone verification, then the affirmation, then
the compliance check — and every failure returns the store unchanged. -/
theorem register_check_order (db : DB) (p : RegisterPayload) (now : Nat) :
    register db p now =
      if latestVerifiedB db p = false then (db, .error .PhoneNotVerified)
      else if p.faithAffirmation = false then (db, .error .AffirmationRequired)
      else if (kycRuleEngine p.country p.name p.email).pass = false then
        (db, .error (.ComplianceRejected (kycRuleEngine p.country p.name p.email).flags))
      else register db p now := by
  cases hlv : latestVerifiedB db p with
  | false =>
    rw [register_pnv_of_unverified db p now hlv, if_pos rfl]
  | true =>
    rw [if_neg (by simp)]
    cases hf : p.faithAffirmation with
    | false =>
      rw [if_pos rfl]
      exact register_affirmation_required db p now hlv hf
    | true =>
      rw [if_neg (by simp)]
      by_cases hk : (kycRuleEngine p.country p.name p.email).pass = false
      · rw [if_pos hk]
        exact register_compliance_rejected db p now hlv hf hk
      · rw [if_neg hk]

/-- Claim C9: `register_identity` never re-checks expiry: with a verified latest
session the gate passes even when the current time is strictly past that
session's `expires_at`. -/
theorem register_ignores_expiry (db : DB) (p : RegisterPayload) (now : Nat)
    (r : OtpSession)
    (hg : getLatestOtp db.otps (normalizePhone p.phone) = some r)
    (hv : r.verified = true) (hexp : now > r.expiresAt) :
    (register db p now).2 ≠ .error .PhoneNotVerified :=
  register_ne_pnv_of_verified db p now r hg hv

theorem countryBad_iff (country : Option (List Char)) :
    countryBad country = true ↔
      ∃ c, country = some c ∧ c ≠ [] ∧ upperStr c ∉ allowedCountries := by
  cases country with
  | none => simp [countryBad, countryTruthy]
  | some c => simp [countryBad, countryTruthy, List.isEmpty_iff]

theorem nameBad_iff (name : List Char) :
    nameBad name = true ↔
      ∃ bad ∈ badWords, containsSub (lowerStr name) bad = true :=
  List.any_eq_true

theorem kyc_flags_struct (country : Option (List Char)) (name email : List Char) :
    (kycRuleEngine country name email).flags =
      (if countryBad country then [Flag.COUNTRY_UNSUPPORTED] else []) ++
      (if nameBad name then [Flag.SUSPECT_NAME] else []) := by
  by_cases hc : countryBad country = true <;> by_cases hn : nameBad name = true <;>
    simp [kycRuleEngine, hc, hn]

/-- Claim C3 counterexample: with `country = Some ""` the country is provided
and its uppercase form is not in the allow-set, yet `kyc_rule_engine`
raises no flag — the empty string is falsy in Python, so the claim's
"provided" biconditional fails at this input. -/
theorem kyc_empty_country_counterexample :
    (some ([] : List Char)) ≠ (none : Option (List Char)) ∧
    upperStr [] ∉ allowedCountries ∧
    Flag.COUNTRY_UNSUPPORTED ∉ (kycRuleEngine (some []) ['A', 'l', 'i'] []).flags := by
  decide

/-- Claim C3 (amended): `COUNTRY_UNSUPPORTED` is flagged iff the country is
provided, non-empty, and its uppercase form is outside the allow-set;
`SUSPECT_NAME` iff the lowercased name contains "test", "fake" or "demo";
the check passes iff no flag triggered; and flags appear in detection
order, country before name. -/
theorem kyc_characterization (country : Option (List Char)) (name email : List Char) :
    (Flag.COUNTRY_UNSUPPORTED ∈ (kycRuleEngine country name email).flags ↔
      ∃ c, country = some c ∧ c ≠ [] ∧ upperStr c ∉ allowedCountries) ∧
    (Flag.SUSPECT_NAME ∈ (kycRuleEngine country name email).flags ↔
      ∃ bad ∈ badWords, containsSub (lowerStr name) bad = true) ∧
    ((kycRuleEngine country name email).pass = true ↔
      (kycRuleEngine country name email).flags = []) ∧
    (kycRuleEngine country name email).flags =
      (if countryBad country then [Flag.COUNTRY_UNSUPPORTED] else []) ++
      (if nameBad name then [Flag.SUSPECT_NAME] else []) := by
  refine ⟨?_, ?_, ?_, kyc_flags_struct country name email⟩
  · rw [kyc_flags_struct country name email, ← countryBad_iff]
    by_cases hc : countryBad country = true <;> by_cases hn : nameBad name = true <;>
      simp [hc, hn]
  · rw [kyc_flags_struct country name email, ← nameBad_iff]
    by_cases hc : countryBad country = true <;> by_cases hn : nameBad name = true <;>
      simp [hc, hn]
  · by_cases hc : countryBad country = true <;> by_cases hn : nameBad name = true <;>
      simp [kycRuleEngine, hc, hn]

theorem natToDecAux_eq_digits (fuel : Nat) :
    ∀ n, n ≤ fuel → natToDecAux fuel n = ((Nat.digits 10 n).map digitChar).reverse := by
  induction fuel with
  | zero =>
    intro n hn
    have h0 : n = 0 := Nat.le_zero.mp hn
    subst h0
    simp [natToDecAux]
  | succ f ih =>
    intro n hn
    by_cases h0 : n = 0
    · subst h0; simp [natToDecAux]
    · have hpos : 0 < n := Nat.pos_of_ne_zero h0
      rw [show natToDecAux (f + 1) n = natToDecAux f (n / 10) ++ [digitChar (n % 10)] by
            simp [natToDecAux, h0]]
      rw [Nat.digits_def' (by norm_num : (1 : ℕ) < 10) hpos]
      rw [List.map_cons, List.reverse_cons]
      congr 1
      apply ih
      have hlt : n / 10 < n := Nat.div_lt_self hpos (by norm_num)
      omega

theorem randint_bounds (seed : Nat) :
    100000 ≤ randint 100000 999999 seed ∧ randint 100000 999999 seed ≤ 999999 := by
  unfold randint
  have h := Nat.mod_lt seed (show 0 < 999999 + 1 - 100000 by norm_num)
  omega

theorem natToDecimal_length (n : Nat) (h1 : 100000 ≤ n) (h2 : n ≤ 999999) :
    (natToDecimal n).length = 6 := by
  have hn : n ≠ 0 := by omega
  rw [natToDecimal, if_neg hn, natToDecAux_eq_digits (n + 1) n (Nat.le_succ n)]
  rw [List.length_reverse, List.length_map]
  rw [Nat.digits_len 10 n (by norm_num) hn]
  have ha : (10 : ℕ) ^ 5 ≤ n := by norm_num; omega
  have hb : n < (10 : ℕ) ^ (5 + 1) := by norm_num; omega
  rw [Nat.log_eq_of_pow_le_of_lt_pow ha hb]

theorem natToDecimal_digits (n : Nat) (hn : n ≠ 0) :
    (natToDecimal n).all Char.isDigit = true := by
  rw [List.all_eq_true]
  rw [natToDecimal, if_neg hn, natToDecAux_eq_digits (n + 1) n (Nat.le_succ n)]
  intro c hc
  rw [List.mem_reverse] at hc
  rcases List.mem_map.mp hc with ⟨d, hd, rfl⟩
  have hlt : d < 10 := Nat.digits_lt_base (by norm_num) hd
  interval_cases d <;> decide

/-- Claim C7: `start_otp` draws a code in [100000, 999999] rendered as a
6-digit numeric string, always appends a fresh unverified session with
`expires_at` = creation time + 300 seconds, and answers with the code and
a 300-second expiry. -/
theorem startOtp_spec (db : DB) (raw : List Char) (seed now : Nat)
    (hraw : raw ≠ []) :
    100000 ≤ randint 100000 999999 seed ∧
    randint 100000 999999 seed ≤ 999999 ∧
    (natToDecimal (randint 100000 999999 seed)).length = 6 ∧
    (natToDecimal (randint 100000 999999 seed)).all Char.isDigit = true ∧
    startOtp db raw seed now =
      ({ db with
           otps := db.otps ++
             [{ phone := normalizePhone raw,
                code := natToDecimal (randint 100000 999999 seed),
                createdAt := now, expiresAt := now + 300,
                verified := false, updatedAt := none, id := db.nextId }],
           nextId := db.nextId + 1 },
       { phone := normalizePhone raw, expiresInSec := 300,
         debugCode := natToDecimal (randint 100000 999999 seed) }) := by
  obtain ⟨h1, h2⟩ := randint_bounds seed
  exact ⟨h1, h2, natToDecimal_length _ h1 h2,
    natToDecimal_digits _ (by omega), rfl⟩

theorem startOtp_spec_witness :
    100000 ≤ randint 100000 999999 0 ∧
    randint 100000 999999 0 ≤ 999999 ∧
    (natToDecimal (randint 100000 999999 0)).length = 6 ∧
    (natToDecimal (randint 100000 999999 0)).all Char.isDigit = true ∧
    startOtp ⟨[], [], 0⟩ ['7'] 0 0 =
      ({ (⟨[], [], 0⟩ : DB) with
           otps := ([] : List OtpSession) ++
             [{ phone := normalizePhone ['7'],
                code := natToDecimal (randint 100000 999999 0),
                createdAt := 0, expiresAt := 0 + 300,
                verified := false, updatedAt := none, id := 0 }],
           nextId := 0 + 1 },
       { phone := normalizePhone ['7'], expiresInSec := 300,
         debugCode := natToDecimal (randint 100000 999999 0) }) :=
  startOtp_spec ⟨[], [], 0⟩ ['7'] 0 0 (by decide)

theorem register_ignores_expiry_witness :
    (register ⟨[⟨['7'], ['1', '2', '3', '4', '5', '6'], 0, 300, true, none, 0⟩], [], 1⟩
        ⟨['7'], ['A'], ['a'], none, true⟩ 301).2 ≠ .error .PhoneNotVerified :=
  register_ignores_expiry _ _ 301 ⟨['7'], ['1', '2', '3', '4', '5', '6'], 0, 300, true, none, 0⟩
    (by decide) (by decide) (by decide)

theorem register_updated (db : DB) (p : RegisterPayload) (now : Nat)
    (r : OtpSession)
    (hg : getLatestOtp db.otps (normalizePhone p.phone) = some r)
    (hv : r.verified = true) (hf : p.faithAffirmation = true)
    (hk : (kycRuleEngine p.country p.name p.email).pass = true)
    (e : Identity)
    (he : db.idents.find? (fun i => decide (i.phone = normalizePhone p.phone)) = some e) :
    register db p now =
      ({ db with idents := updateFirstIdent db.idents e.id p now }, .ok .UPDATED) := by
  simp only [register, hg]
  rw [if_neg (by simp [hv]), if_neg (by simp [hf]), if_neg (by simp [hk]), he]

theorem register_created (db : DB) (p : RegisterPayload) (now : Nat)
    (r : OtpSession)
    (hg : getLatestOtp db.otps (normalizePhone p.phone) = some r)
    (hv : r.verified = true) (hf : p.faithAffirmation = true)
    (hk : (kycRuleEngine p.country p.name p.email).pass = true)
    (hn : db.idents.find? (fun i => decide (i.phone = normalizePhone p.phone)) = none) :
    register db p now =
      ({ db with
           idents := db.idents ++
             [{ phone := normalizePhone p.phone, name := p.name, email := p.email,
                country := p.country, faithAffirmation := p.faithAffirmation,
                createdAt := now, updatedAt := none, id := db.nextId }],
           nextId := db.nextId + 1 },
       .ok .CREATED) := by
  simp only [register, hg]
  rw [if_neg (by simp [hv]), if_neg (by simp [hf]), if_neg (by simp [hk]), hn]

theorem countP_updateFirstIdent (l : List Identity) (i : Nat)
    (p : RegisterPayload) (now : Nat) (q : List Char) :
    (updateFirstIdent l i p now).countP (fun e => decide (e.phone = q)) =
      l.countP (fun e => decide (e.phone = q)) := by
  induction l with
  | nil => rfl
  | cons e t ih =>
    rw [updateFirstIdent]
    by_cases he : e.id = i
    · rw [if_pos he]
      simp [List.countP_cons]
    · rw [if_neg he]
      simp [List.countP_cons, ih]

/-- Claim C4: with a verified latest session and passing gates, registering
upserts by phone: update-in-place with `UPDATED` when an identity exists,
insert with `CREATED` when none does; registering twice from an empty
slate yields `CREATED` then `UPDATED` and exactly one identity for the
phone. -/
theorem register_upsert (db : DB) (p p2 : RegisterPayload) (now now2 : Nat)
    (hv : latestVerifiedB db p = true)
    (hf : p.faithAffirmation = true)
    (hk : (kycRuleEngine p.country p.name p.email).pass = true)
    (hph : normalizePhone p2.phone = normalizePhone p.phone)
    (hf2 : p2.faithAffirmation = true)
    (hk2 : (kycRuleEngine p2.country p2.name p2.email).pass = true) :
    (∀ e, db.idents.find? (fun i => decide (i.phone = normalizePhone p.phone)) = some e →
        register db p now =
          ({ db with idents := updateFirstIdent db.idents e.id p now }, .ok .UPDATED)) ∧
    (db.idents.find? (fun i => decide (i.phone = normalizePhone p.phone)) = none →
        (register db p now).2 = .ok .CREATED ∧
        (register (register db p now).1 p2 now2).2 = .ok .UPDATED ∧
        ((register (register db p now).1 p2 now2).1.idents.countP
            (fun i => decide (i.phone = normalizePhone p.phone))) = 1) := by
  have hr : ∃ r, getLatestOtp db.otps (normalizePhone p.phone) = some r ∧
      r.verified = true := by
    cases hg : getLatestOtp db.otps (normalizePhone p.phone) with
    | none => simp [latestVerifiedB, hg] at hv
    | some r =>
      refine ⟨r, rfl, ?_⟩
      simpa [latestVerifiedB, hg] using hv
  obtain ⟨r, hg, hvr⟩ := hr
  constructor
  · intro e he
    exact register_updated db p now r hg hvr hf hk e he
  · intro hn
    have hcre := register_created db p now r hg hvr hf hk hn
    have hnewI :
        (register db p now).1.idents = db.idents ++
          [{ phone := normalizePhone p.phone, name := p.name, email := p.email,
             country := p.country, faithAffirmation := p.faithAffirmation,
             createdAt := now, updatedAt := none, id := db.nextId }] := by
      rw [hcre]
    have hotps1 : (register db p now).1.otps = db.otps := by rw [hcre]
    have hg2 : getLatestOtp (register db p now).1.otps (normalizePhone p2.phone) =
        some r := by
      rw [hotps1, hph]; exact hg
    have hfind2 :
        (register db p now).1.idents.find?
            (fun i => decide (i.phone = normalizePhone p2.phone)) =
          some { phone := normalizePhone p.phone, name := p.name, email := p.email,
                 country := p.country, faithAffirmation := p.faithAffirmation,
                 createdAt := now, updatedAt := none, id := db.nextId } := by
      rw [hnewI, List.find?_append, hph, hn]
      simp
    have hupd := register_updated (register db p now).1 p2 now2 r hg2 hvr hf2 hk2 _ hfind2
    refine ⟨by rw [hcre], by rw [hupd], ?_⟩
    rw [hupd]
    show (updateFirstIdent (register db p now).1.idents _ p2 now2).countP _ = 1
    rw [countP_updateFirstIdent, hnewI, List.countP_append]
    have hzero : db.idents.countP (fun i => decide (i.phone = normalizePhone p.phone)) = 0 := by
      rw [List.countP_eq_zero]
      exact List.find?_eq_none.mp hn
    rw [hzero]
    simp

theorem register_upsert_witness :
    (∀ e, (DB.idents ⟨[⟨['7'], ['1'], 0, 300, true, none, 0⟩], [], 1⟩).find?
        (fun i => decide (i.phone = normalizePhone ['7'])) = some e →
        register ⟨[⟨['7'], ['1'], 0, 300, true, none, 0⟩], [], 1⟩
            ⟨['7'], ['A'], ['a'], none, true⟩ 5 =
          ({ (⟨[⟨['7'], ['1'], 0, 300, true, none, 0⟩], [], 1⟩ : DB) with
               idents := updateFirstIdent
                 (DB.idents ⟨[⟨['7'], ['1'], 0, 300, true, none, 0⟩], [], 1⟩) e.id
                 ⟨['7'], ['A'], ['a'], none, true⟩ 5 }, .ok .UPDATED)) ∧
    ((DB.idents ⟨[⟨['7'], ['1'], 0, 300, true, none, 0⟩], [], 1⟩).find?
        (fun i => decide (i.phone = normalizePhone ['7'])) = none →
        (register ⟨[⟨['7'], ['1'], 0, 300, true, none, 0⟩], [], 1⟩
            ⟨['7'], ['A'], ['a'], none, true⟩ 5).2 = .ok .CREATED ∧
        (register (register ⟨[⟨['7'], ['1'], 0, 300, true, none, 0⟩], [], 1⟩
              ⟨['7'], ['A'], ['a'], none, true⟩ 5).1
            ⟨['7'], ['A'], ['a'], none, true⟩ 6).2 = .ok .UPDATED ∧
        ((register (register ⟨[⟨['7'], ['1'], 0, 300, true, none, 0⟩], [], 1⟩
                ⟨['7'], ['A'], ['a'], none, true⟩ 5).1
              ⟨['7'], ['A'], ['a'], none, true⟩ 6).1.idents.countP
            (fun i => decide (i.phone = normalizePhone ['7']))) = 1) :=
  register_upsert ⟨[⟨['7'], ['1'], 0, 300, true, none, 0⟩], [], 1⟩
    ⟨['7'], ['A'], ['a'], none, true⟩ ⟨['7'], ['A'], ['a'], none, true⟩ 5 6
    (by decide) (by decide) (by decide) (by decide) (by decide) (by decide)

theorem map_self_of_fixed {α : Type} (l : List α) (f : α → α)
    (h : ∀ a ∈ l, f a = a) : l.map f = l := by
  induction l with
  | nil => rfl
  | cons a t ih =>
    rw [List.map_cons, h a (by simp), ih (fun x hx => h x (by simp [hx]))]

theorem setVerified_id (i now : Nat) (r : OtpSession) :
    (setVerified i now r).id = r.id := by
  by_cases h : r.id = i <;> simp [setVerified, h]

theorem setVerified_phone (i now : Nat) (r : OtpSession) :
    (setVerified i now r).phone = r.phone := by
  by_cases h : r.id = i <;> simp [setVerified, h]

theorem setVerified_createdAt (i now : Nat) (r : OtpSession) :
    (setVerified i now r).createdAt = r.createdAt := by
  by_cases h : r.id = i <;> simp [setVerified, h]

theorem setVerified_code (i now : Nat) (r : OtpSession) :
    (setVerified i now r).code = r.code := by
  by_cases h : r.id = i <;> simp [setVerified, h]

theorem setVerified_expiresAt (i now : Nat) (r : OtpSession) :
    (setVerified i now r).expiresAt = r.expiresAt := by
  by_cases h : r.id = i <;> simp [setVerified, h]

theorem setVerified_twice (i now1 now2 : Nat) (x : OtpSession) :
    setVerified i now2 (setVerified i now1 x) = setVerified i now2 x := by
  by_cases h : x.id = i <;> simp [setVerified, h]

theorem updateFirstOtp_eq_map (l : List OtpSession) (i now : Nat)
    (h : (l.map OtpSession.id).Nodup) :
    updateFirstOtp l i now = l.map (setVerified i now) := by
  induction l with
  | nil => rfl
  | cons r t ih =>
    rw [List.map_cons, List.nodup_cons] at h
    obtain ⟨hr, ht⟩ := h
    rw [updateFirstOtp, List.map_cons]
    by_cases hri : r.id = i
    · rw [if_pos hri]
      have htail : t.map (setVerified i now) = t := by
        apply map_self_of_fixed
        intro x hx
        rw [setVerified, if_neg]
        intro hxi
        exact hr (List.mem_map.mpr ⟨x, hx, by rw [hxi, hri]⟩)
      rw [htail]
      congr 1
      simp [setVerified, hri]
    · rw [if_neg hri, ih ht]
      congr 1
      simp [setVerified, hri]

theorem getLatestOtp_map_pres (f : OtpSession → OtpSession)
    (hph : ∀ r, (f r).phone = r.phone)
    (hca : ∀ r, (f r).createdAt = r.createdAt)
    (l : List OtpSession) (q : List Char) :
    getLatestOtp (l.map f) q = (getLatestOtp l q).map f := by
  have hfil : (l.map f).filter (fun r => decide (r.phone = q)) =
      (l.filter (fun r => decide (r.phone = q))).map f := by
    induction l with
    | nil => rfl
    | cons a t ih =>
      rw [List.map_cons, List.filter_cons, List.filter_cons]
      by_cases ha : a.phone = q
      · rw [if_pos (by simp [hph, ha]), if_pos (by simp [ha]), List.map_cons, ih]
      · rw [if_neg (by simp [hph, ha]), if_neg (by simp [ha]), ih]
  have hstep : ∀ (acc : Option OtpSession) (a : OtpSession),
      pickLater (acc.map f) (f a) = (pickLater acc a).map f := by
    intro acc a
    cases acc with
    | none => rfl
    | some b =>
      show (if (f b).createdAt < (f a).createdAt then some (f a) else some (f b)) = _
      rw [hca, hca]
      by_cases hb : b.createdAt < a.createdAt
      · rw [if_pos hb]
        show _ = Option.map f (if b.createdAt < a.createdAt then some a else some b)
        rw [if_pos hb]; rfl
      · rw [if_neg hb]
        show _ = Option.map f (if b.createdAt < a.createdAt then some a else some b)
        rw [if_neg hb]; rfl
  have hfold : ∀ (m : List OtpSession) (acc : Option OtpSession),
      (m.map f).foldl pickLater (acc.map f) = (m.foldl pickLater acc).map f := by
    intro m
    induction m with
    | nil => intro acc; rfl
    | cons a t ih =>
      intro acc
      rw [List.map_cons, List.foldl_cons, List.foldl_cons, hstep]
      exact ih _
  rw [getLatestOtp, getLatestOtp, hfil]
  have := hfold (l.filter (fun r => decide (r.phone = q))) none
  simpa using this

/-- Claim C6: verifying the correct code before expiry flips the latest
session's `verified` to true and stamps `updated_at`; doing it again on
the already-verified, unexpired session succeeds with the same effect. -/
theorem verifyOtp_success_idempotent (db : DB) (p : VerifyPayload)
    (now1 now2 : Nat) (r : OtpSession)
    (hids : (db.otps.map OtpSession.id).Nodup)
    (hg : getLatestOtp db.otps (normalizePhone p.phone) = some r)
    (he1 : ¬ now1 > r.expiresAt) (hc : p.code = r.code)
    (he2 : ¬ now2 > r.expiresAt) :
    verifyOtp db p now1 =
      ({ db with otps := db.otps.map (setVerified r.id now1) },
        .ok (normalizePhone p.phone)) ∧
    (setVerified r.id now1 r).verified = true ∧
    (setVerified r.id now1 r).updatedAt = some now1 ∧
    verifyOtp { db with otps := db.otps.map (setVerified r.id now1) } p now2 =
      ({ db with otps := db.otps.map (setVerified r.id now2) },
        .ok (normalizePhone p.phone)) := by
  have h1 : verifyOtp db p now1 =
      ({ db with otps := db.otps.map (setVerified r.id now1) },
        .ok (normalizePhone p.phone)) := by
    simp only [verifyOtp, hg]
    rw [if_neg he1, if_neg (by simp [hc])]
    rw [updateFirstOtp_eq_map db.otps r.id now1 hids]
  have hg2 : getLatestOtp (db.otps.map (setVerified r.id now1))
      (normalizePhone p.phone) = some (setVerified r.id now1 r) := by
    rw [getLatestOtp_map_pres _ (setVerified_phone r.id now1)
        (setVerified_createdAt r.id now1), hg]
    rfl
  have hids1 : ((db.otps.map (setVerified r.id now1)).map OtpSession.id).Nodup := by
    rw [List.map_map]
    have he : db.otps.map (OtpSession.id ∘ setVerified r.id now1) =
        db.otps.map OtpSession.id :=
      List.map_congr_left (fun a _ => setVerified_id r.id now1 a)
    rw [he]
    exact hids
  have h2 : verifyOtp { db with otps := db.otps.map (setVerified r.id now1) } p now2 =
      ({ db with otps := db.otps.map (setVerified r.id now2) },
        .ok (normalizePhone p.phone)) := by
    simp only [verifyOtp, hg2]
    rw [if_neg (by rw [setVerified_expiresAt]; exact he2),
        if_neg (by rw [setVerified_code]; simp [hc])]
    rw [setVerified_id]
    rw [updateFirstOtp_eq_map _ r.id now2 hids1]
    rw [List.map_map]
    have hcomp : db.otps.map (setVerified r.id now2 ∘ setVerified r.id now1) =
        db.otps.map (setVerified r.id now2) :=
      List.map_congr_left (fun a _ => setVerified_twice r.id now1 now2 a)
    rw [hcomp]
  exact ⟨h1, by simp [setVerified], by simp [setVerified], h2⟩

theorem verifyOtp_success_idempotent_witness :
    verifyOtp ⟨[⟨['7'], ['1'], 0, 300, false, none, 0⟩], [], 1⟩ ⟨['7'], ['1']⟩ 5 =
      ({ (⟨[⟨['7'], ['1'], 0, 300, false, none, 0⟩], [], 1⟩ : DB) with
           otps := [(⟨['7'], ['1'], 0, 300, false, none, 0⟩ : OtpSession)].map
             (setVerified 0 5) },
        .ok (normalizePhone ['7'])) ∧
    (setVerified 0 5 ⟨['7'], ['1'], 0, 300, false, none, 0⟩).verified = true ∧
    (setVerified 0 5 ⟨['7'], ['1'], 0, 300, false, none, 0⟩).updatedAt = some 5 ∧
    verifyOtp
        { (⟨[⟨['7'], ['1'], 0, 300, false, none, 0⟩], [], 1⟩ : DB) with
            otps := [(⟨['7'], ['1'], 0, 300, false, none, 0⟩ : OtpSession)].map
              (setVerified 0 5) } ⟨['7'], ['1']⟩ 6 =
      ({ (⟨[⟨['7'], ['1'], 0, 300, false, none, 0⟩], [], 1⟩ : DB) with
           otps := [(⟨['7'], ['1'], 0, 300, false, none, 0⟩ : OtpSession)].map
             (setVerified 0 6) },
        .ok (normalizePhone ['7'])) :=
  verifyOtp_success_idempotent _ _ 5 6 ⟨['7'], ['1'], 0, 300, false, none, 0⟩
    (by decide) (by decide) (by decide) (by decide) (by decide)

end IdentityApi
